import Mathlib

/-!
Verification development for the autosurgeon hydrate/reconcile engine.

The definitions below are shallow embeddings of the Rust sources under
`autosurgeon/src/`.  Machine integers (`i64`, `u64`, `usize`, `u32`) are
modelled as `Int`/`Nat`; none of the verified properties depends on
overflow behaviour.  The external automerge document engine (crate
`automerge`, out of scope of the specification except at its §4.1
boundary) is modelled as a small tree/object store with the standard
automerge semantics: reads are pure, writes are fallible, list indices
out of range make a write operation fail, and failing write operations
leave the document unchanged.  Floating point payloads are modelled as
opaque integer codes since no verified property computes with them.
-/

namespace Autosurgeon

/-- Scalar values of the document model (`automerge::ScalarValue`).
The `f64` payload is an opaque code; `bytes` payloads are byte lists. -/
inductive AmScalar where
  | null
  | boolean (b : Bool)
  | bytes (bs : List Nat)
  | str (s : String)
  | int (i : Int)
  | uint (u : Nat)
  | f64 (code : Int)
  | counter (c : Int)
  | timestamp (t : Int)
  | unknown (typeCode : Nat) (bs : List Nat)
  deriving DecidableEq, Repr

/-- Properties addressing a slot (`autosurgeon::prop::Prop`): a map key or a
sequence index. -/
inductive AmProp where
  | key (k : String)
  | index (i : Nat)
  deriving DecidableEq, Repr

/-- Kinds of composite objects (`automerge::ObjType`, without the deprecated
`Table` kind, which no claim touches). -/
inductive ObjKind where
  | mapK
  | listK
  | textK
  deriving DecidableEq, Repr

/-- Tri-state result of obtaining a key (`reconcile.rs`, `enum LoadKey`). -/
inductive LoadKey (K : Type) where
  | noKey
  | keyNotFound
  | found (k : K)
  deriving DecidableEq, Repr

/-- True exactly on `LoadKey.found`. -/
def LoadKey.isFound {K : Type} : LoadKey K → Bool
  | .found _ => true
  | _ => false

/-! ## Sequence diff equality (`reconcile/seq.rs`, lines 38-53)

`PartialEq<OldElem<LoadKey<T::Key>>> for NewElem` compares a new element
(through its key and its position in the new sequence) with an old marker
(a loaded key plus its index in the document sequence). -/

/-- Embedding of the `eq` method of
`impl PartialEq<OldElem<LoadKey<T::Key>>> for NewElem` in
`reconcile/seq.rs`.  `newKey` is `self.elem.key()`, `newIndex` is
`self.index`, `oldKey` is `other.key`, `oldIndex` is `other.index`. -/
def newElemEqOldElem {K : Type} [DecidableEq K]
    (newKey : LoadKey K) (newIndex : Nat)
    (oldKey : LoadKey K) (oldIndex : Nat) : Bool :=
  match newKey, oldKey with
  | .found k1, .found k2 => decide (k1 = k2)
  | .found _, _ => false
  | _, .found _ => false
  | _, _ => decide (newIndex = oldIndex)

/-! ## Map entry reconciliation (`reconcile/map.rs`, lines 31-54)

`reconcile_map_impl` walks the entries of a `HashMap`/`BTreeMap` and for
each entry decides between a plain `put` and a `replace` (which the
default implementation of `MapReconciler::replace`, `reconcile.rs` lines
132-140, performs as a `delete` followed by a `put`).  The operations the
map reconciler is asked to perform are recorded as a trace. -/

/-- Operation requested of the map reconciler for one entry. -/
inductive MapEntryOp (V : Type) where
  | put (k : String) (v : V)
  | delete (k : String)
  deriving DecidableEq

/-- Embedding of `reconcile_map_impl` (`reconcile/map.rs` lines 31-54) as the
trace of `MapReconciler` operations it issues.  `keyOf` stands for
`Reconcile::key` of the value type and `hydrateEntryKey` for
`MapReconciler::hydrate_entry_key` (whose error propagation is orthogonal
to the recorded trace).  `replace` is expanded to `delete` then `put` per
its default implementation (`reconcile.rs` lines 132-140). -/
def reconcileMapImpl {K V : Type} [DecidableEq K]
    (keyOf : V → LoadKey K) (hydrateEntryKey : String → LoadKey K) :
    List (String × V) → List (MapEntryOp V)
  | [] => []
  | (k, val) :: rest =>
    let tail := reconcileMapImpl keyOf hydrateEntryKey rest
    match keyOf val with
    | .found newKey =>
      match hydrateEntryKey k with
      | .found existingKey =>
        if existingKey ≠ newKey then
          .delete k :: .put k val :: tail
        else
          .put k val :: tail
      | _ => .put k val :: tail
    | _ => .put k val :: tail

/-! ## Counter state machine (`counter.rs`) -/

/-- The private `State` of `Counter` (`counter.rs` lines 53-57). -/
inductive CounterState where
  | fresh (v : Int)
  | rehydrated (original : Int) (increment : Int)
  deriving DecidableEq

/-- Operations of the `CounterReconciler` trait (`reconcile.rs` lines
204-210). -/
inductive CounterOp where
  | set (v : Int)
  | increment (delta : Int)
  deriving DecidableEq

/-- Embedding of `impl Reconcile for Counter`_s `reconcile`
(`counter.rs` lines 82-93) as the trace of `CounterReconciler` calls. -/
def counterReconcileOps : CounterState → List CounterOp
  | .fresh v => [.set v]
  | .rehydrated _ increment => [.increment increment]

/-- Embedding of `Counter::value` (`counter.rs` lines 71-79). -/
def counterValue : CounterState → Int
  | .fresh v => v
  | .rehydrated original increment => original + increment

/-- Embedding of `Counter::increment` (`counter.rs` lines 64-69). -/
def counterIncrement : CounterState → Int → CounterState
  | .fresh v, by_ => .fresh (v + by_)
  | .rehydrated original increment, by_ => .rehydrated original (increment + by_)

/-! ## Read-side document model (the `ReadDoc` boundary, `doc.rs`)

For hydration the document is a pure tree; an object identity is its
address from the root (a list of properties), so `automerge::ROOT` is the
empty address.  `Node.child` is the engine's `get` restricted to one
object: a map looks a key up among its entries, a list indexes its items,
and a text object yields the character at an index as a string scalar. -/

/-- Document nodes for the read-only hydration model. -/
inductive Node where
  | scalar (s : AmScalar)
  | map (entries : List (String × Node))
  | list (items : List Node)
  | text (s : String)

/-- The value stored directly under a property of a node. -/
def Node.child : Node → AmProp → Option Node
  | .map es, .key k => (es.find? (fun e => e.1 = k)).map (fun e => e.2)
  | .list its, .index i => its.get? i
  | .text s, .index i => (s.toList.get? i).map (fun c => .scalar (.str c.toString))
  | _, _ => Option.none

/-- Resolve an object address from the root. -/
def resolveAddr (root : Node) : List AmProp → Option Node
  | [] => some root
  | p :: rest =>
    match root.child p with
    | some n => resolveAddr n rest
    | Option.none => Option.none

/-- The engine's `get(obj, prop)` (`ReadDoc::get`): the value at property
`p` of the object at address `obj`; the child object's identity is
`obj ++ [p]`. -/
def getAt (root : Node) (obj : List AmProp) (p : AmProp) : Option Node :=
  (resolveAddr root obj).bind (fun n => n.child p)

/-- The kind of a node when it is a composite object. -/
def objKind : Node → Option ObjKind
  | .map _ => some .mapK
  | .list _ => some .listK
  | .text _ => some .textK
  | .scalar _ => Option.none

/-- The engine's `object_type(obj)` (`ReadDoc::object_type`). -/
def objectTypeAt (root : Node) (obj : List AmProp) : Option ObjKind :=
  (resolveAddr root obj).bind objKind

/-- The engine's `length(obj)` (`ReadDoc::length`): entry count of a map,
item count of a list, character count of a text, `0` otherwise. -/
def lengthAt (root : Node) (obj : List AmProp) : Nat :=
  match resolveAddr root obj with
  | some (.map es) => es.length
  | some (.list its) => its.length
  | some (.text s) => s.length
  | _ => 0

/-! ## Hydration (`hydrate.rs`, `hydrate/impls.rs`) -/

/-- The node-kind tags of `enum Unexpected` (`hydrate.rs` lines 218-234). -/
inductive Unexpected where
  | map
  | seq
  | text
  | boolean
  | bytes
  | counter
  | f64
  | int
  | uint
  | string
  | timestamp
  | unknown
  | none
  | other (expected : String) (found : String)
  deriving DecidableEq

/-- The error family of hydration (`enum HydrateError`, `hydrate.rs` lines
185-193); `automerge` is a pass-through document-engine fault. -/
inductive HydrateError where
  | automerge (msg : String)
  | unexpected (u : Unexpected)
  | parse (msg : String)
  deriving DecidableEq

/-- The `Hydrate` trait (`hydrate.rs` lines 24-106) as a record of the
per-kind constructors; each field defaults to the trait's safe default,
an `Unexpected` error naming the kind it cannot handle.  The `hydrateMap`
/ `hydrateSeq` / `hydrateText` constructors receive the document root and
the object's address, mirroring the Rust `(doc, obj)` arguments. -/
structure HydrateImpl (α : Type) where
  hydrateBool : Bool → Except HydrateError α :=
    fun _ => .error (.unexpected .boolean)
  hydrateBytes : List Nat → Except HydrateError α :=
    fun _ => .error (.unexpected .bytes)
  hydrateF64 : Int → Except HydrateError α :=
    fun _ => .error (.unexpected .f64)
  hydrateCounter : Int → Except HydrateError α :=
    fun _ => .error (.unexpected .counter)
  hydrateInt : Int → Except HydrateError α :=
    fun _ => .error (.unexpected .int)
  hydrateUint : Nat → Except HydrateError α :=
    fun _ => .error (.unexpected .uint)
  hydrateString : String → Except HydrateError α :=
    fun _ => .error (.unexpected .string)
  hydrateTimestamp : Int → Except HydrateError α :=
    fun _ => .error (.unexpected .timestamp)
  hydrateUnknown : Nat → List Nat → Except HydrateError α :=
    fun _ _ => .error (.unexpected .unknown)
  hydrateMap : Node → List AmProp → Except HydrateError α :=
    fun _ _ => .error (.unexpected .map)
  hydrateSeq : Node → List AmProp → Except HydrateError α :=
    fun _ _ => .error (.unexpected .seq)
  hydrateText : Node → List AmProp → Except HydrateError α :=
    fun _ _ => .error (.unexpected .text)
  hydrateNone : Except HydrateError α :=
    .error (.unexpected .none)

/-- The trait's `hydrate_scalar` default method (`hydrate.rs` lines
40-53). -/
def hydrateScalar {α : Type} (h : HydrateImpl α) : AmScalar → Except HydrateError α
  | .null => h.hydrateNone
  | .boolean b => h.hydrateBool b
  | .bytes bs => h.hydrateBytes bs
  | .counter c => h.hydrateCounter c
  | .f64 f => h.hydrateF64 f
  | .int i => h.hydrateInt i
  | .uint u => h.hydrateUint u
  | .str s => h.hydrateString s
  | .timestamp t => h.hydrateTimestamp t
  | .unknown tc bs => h.hydrateUnknown tc bs

/-- Dispatch on the node found at a slot, as in the trait's `hydrate`
default method (`hydrate.rs` lines 32-37) after a successful `get`;
`objAddr` is the found object's identity. -/
def hydrateNode {α : Type} (h : HydrateImpl α) (root : Node) (objAddr : List AmProp) :
    Node → Except HydrateError α
  | .map _ => h.hydrateMap root objAddr
  | .list _ => h.hydrateSeq root objAddr
  | .text _ => h.hydrateText root objAddr
  | .scalar v => hydrateScalar h v

/-- The trait's `hydrate` default method (`hydrate.rs` lines 25-38):
read the node at `(obj, p)`; if absent invoke `hydrate_none`, else
dispatch on the node kind. -/
def hydrateAt {α : Type} (h : HydrateImpl α) (root : Node) (obj : List AmProp)
    (p : AmProp) : Except HydrateError α :=
  match getAt root obj p with
  | Option.none => h.hydrateNone
  | some n => hydrateNode h root (obj ++ [p]) n

/-- The crate-level `hydrate` function (`hydrate.rs` lines 109-111):
`H::hydrate_map(doc, ROOT)`. -/
def hydrateRoot {α : Type} (h : HydrateImpl α) (root : Node) : Except HydrateError α :=
  h.hydrateMap root []

/-- The `Hydrate` impl for `u64` (`hydrate/impls.rs` lines 25-43): only
`hydrate_uint` is overridden, and for `u64` the `try_into` conversion
always succeeds. -/
def u64Hydrate : HydrateImpl Nat := { hydrateUint := fun u => .ok u }

/-- The overridden `hydrate` of `impl Hydrate for Option<T>`
(`hydrate/impls.rs` lines 67-101): an absent slot is an `Unexpected`
error, a `Null` scalar is `Ok(None)`, and every other node dispatches to
the matching constructor of `T`, wrapped in `Some`. -/
def optionHydrate {α : Type} (t : HydrateImpl α) (root : Node) (obj : List AmProp)
    (p : AmProp) : Except HydrateError (Option α) :=
  match getAt root obj p with
  | Option.none =>
    .error (.unexpected (.other "a ScalarValue::Null" "nothing at all"))
  | some (.map _) => (t.hydrateMap root (obj ++ [p])).map some
  | some (.list _) => (t.hydrateSeq root (obj ++ [p])).map some
  | some (.text _) => (t.hydrateText root (obj ++ [p])).map some
  | some (.scalar v) =>
    match v with
    | .null => .ok Option.none
    | .boolean b => (t.hydrateBool b).map some
    | .bytes bs => (t.hydrateBytes bs).map some
    | .counter c => (t.hydrateCounter c).map some
    | .f64 f => (t.hydrateF64 f).map some
    | .int i => (t.hydrateInt i).map some
    | .uint u => (t.hydrateUint u).map some
    | .str s => (t.hydrateString s).map some
    | .timestamp ti => (t.hydrateTimestamp ti).map some
    | .unknown tc bs => (t.hydrateUnknown tc bs).map some

/-- The `hydrate_seq` generated by the tuple `tuple_impl!` macro
(`hydrate/impls.rs` lines 123-146), rendered for a homogeneous element
hydrator: `arity` is the highest component index plus one; a length
mismatch is the `tuple arity mismatch` error, otherwise each component is
hydrated at its index. -/
def tupleHydrateSeq {α : Type} (h : HydrateImpl α) (arity : Nat) (root : Node)
    (obj : List AmProp) : Except HydrateError (List α) :=
  let len := lengthAt root obj
  if len ≠ arity then
    .error (.unexpected (.other "tuple arity mismatch"
      ("tuple of arity " ++ toString arity ++ " but array of length " ++ toString len)))
  else
    (List.range arity).mapM (fun i => hydrateAt h root obj (.index i))

/-- The parent of a non-root object in the address model (the first entry
of the `ReadDoc::parents` iterator). -/
def parentOf (addr : List AmProp) : Option (List AmProp × AmProp) :=
  match addr.getLast? with
  | some p => some (addr.dropLast, p)
  | Option.none => Option.none

/-- The `while let Some(path_elem) = path.next()` loop of `hydrate_path`
(`hydrate.rs` lines 148-181) followed by the final
`Ok(Some(hydrate_prop(doc, obj, prop)?))` (line 182).  The arguments are
the current `obj`, the pending `prop`, the tracked `obj_type` and the
not-yet-consumed path elements.  When the slot at `prop` holds a scalar,
the Rust code returns `Ok(None)` only if the iterator can still `peek` a
further element; otherwise it keeps `obj` and `obj_type` and moves on to
`path_elem`. -/
def hydratePathLoop {α : Type} (h : HydrateImpl α) (root : Node) :
    List AmProp → AmProp → ObjKind → List AmProp → Except HydrateError (Option α)
  | obj, p, _, [] => (hydrateAt h root obj p).map some
  | obj, p, t, pathElem :: rest =>
    match p, t with
    | .key _, .mapK =>
      (match getAt root obj p with
       | some (.map _) => hydratePathLoop h root (obj ++ [p]) pathElem .mapK rest
       | some (.list _) => hydratePathLoop h root (obj ++ [p]) pathElem .listK rest
       | some (.text _) => hydratePathLoop h root (obj ++ [p]) pathElem .textK rest
       | some (.scalar _) =>
         if rest.isEmpty then hydratePathLoop h root obj pathElem t rest
         else .ok Option.none
       | Option.none => .ok Option.none)
    | .index _, .listK =>
      (match getAt root obj p with
       | some (.map _) => hydratePathLoop h root (obj ++ [p]) pathElem .mapK rest
       | some (.list _) => hydratePathLoop h root (obj ++ [p]) pathElem .listK rest
       | some (.text _) => hydratePathLoop h root (obj ++ [p]) pathElem .textK rest
       | some (.scalar _) =>
         if rest.isEmpty then hydratePathLoop h root obj pathElem t rest
         else .ok Option.none
       | Option.none => .ok Option.none)
    | .index _, .textK =>
      (match getAt root obj p with
       | some (.map _) => hydratePathLoop h root (obj ++ [p]) pathElem .mapK rest
       | some (.list _) => hydratePathLoop h root (obj ++ [p]) pathElem .listK rest
       | some (.text _) => hydratePathLoop h root (obj ++ [p]) pathElem .textK rest
       | some (.scalar _) =>
         if rest.isEmpty then hydratePathLoop h root obj pathElem t rest
         else .ok Option.none
       | Option.none => .ok Option.none)
    | _, _ => .ok Option.none

/-- Embedding of `hydrate_path` (`hydrate.rs` lines 126-183).  For an empty
path at the root the whole document hydrates as a map; for an empty path
elsewhere the parent slot hydrates as an `Option` (the Rust
`hydrate_prop` call there is instantiated at `Option<H>` by inference).
Otherwise the first element seeds the `(obj, prop)` walk, after the
`object_type` guard. -/
def hydratePath {α : Type} (h : HydrateImpl α) (root : Node) (obj : List AmProp)
    (path : List AmProp) : Except HydrateError (Option α) :=
  match path with
  | [] =>
    if obj = [] then (hydrateRoot h root).map some
    else
      match parentOf obj with
      | Option.none => .ok Option.none
      | some (pobj, pprop) => optionHydrate h root pobj pprop
  | p :: rest =>
    match objectTypeAt root obj with
    | Option.none => .ok Option.none
    | some t => hydratePathLoop h root obj p t rest

/-! ## Write-side document model (the `Doc` boundary, `doc.rs`)

Reconciliation needs object identities that survive edits and a record of
the write operations issued to the engine, so here the document is an
object store: a table from numeric identities to objects, a fresh-identity
counter, the opaque heads snapshot, and the trace of issued writes.
Write operations are the §4.1 surface; as in automerge they are fallible
(a list index out of range fails) and a failing operation leaves the
document unchanged and issues nothing. -/

/-- A value held inside an object: a scalar or a reference to another
object by identity. -/
inductive MVal where
  | scalar (s : AmScalar)
  | objRef (id : Nat)
  deriving DecidableEq

/-- A composite object of the store. -/
inductive MObj where
  | mapObj (entries : List (String × MVal))
  | listObj (items : List MVal)
  | textObj (content : String)
  deriving DecidableEq

/-- One write operation of the `Doc` trait (`doc.rs` lines 38-86). -/
inductive WriteOp where
  | put (obj : Nat) (p : AmProp) (v : AmScalar)
  | putObject (obj : Nat) (p : AmProp) (kind : ObjKind)
  | insert (obj : Nat) (idx : Nat) (v : AmScalar)
  | insertObject (obj : Nat) (idx : Nat) (kind : ObjKind)
  | increment (obj : Nat) (p : AmProp) (delta : Int)
  | delete (obj : Nat) (p : AmProp)
  | spliceText (obj : Nat) (pos : Nat) (del : Int) (ins : String)
  deriving DecidableEq

/-- The mutable document: object store, fresh-identity counter, heads and
the trace of issued write operations.  Identity `0` plays the role of
`automerge::ROOT`. -/
structure MDoc where
  objs : List (Nat × MObj)
  nextId : Nat
  heads : List Nat
  writes : List WriteOp
  deriving DecidableEq

/-- Look an object up by identity. -/
def MDoc.getObj (d : MDoc) (id : Nat) : Option MObj :=
  (d.objs.find? (fun e => e.1 = id)).map (fun e => e.2)

/-- What the engine's `get` reports for a stored value: mirrors automerge's
`(Value, ObjId)` pair. -/
inductive DocValue where
  | scalarV (s : AmScalar)
  | objectV (kind : ObjKind) (id : Nat)
  deriving DecidableEq

/-- Resolve a stored value to what `get` reports.  A dangling object
reference cannot be produced by the engine; it is reported as a map. -/
def MDoc.resolveVal (d : MDoc) : MVal → DocValue
  | .scalar s => .scalarV s
  | .objRef i =>
    match d.getObj i with
    | some (.mapObj _) => .objectV .mapK i
    | some (.listObj _) => .objectV .listK i
    | some (.textObj _) => .objectV .textK i
    | Option.none => .objectV .mapK i

/-- The engine's `get(obj, prop)` on the mutable document. -/
def MDoc.get (d : MDoc) (obj : Nat) (p : AmProp) : Option DocValue :=
  match d.getObj obj, p with
  | some (.mapObj es), .key k =>
    ((es.find? (fun e => e.1 = k)).map (fun e => e.2)).map d.resolveVal
  | some (.listObj its), .index i => (its.get? i).map d.resolveVal
  | some (.textObj s), .index i =>
    (s.toList.get? i).map (fun c => .scalarV (.str c.toString))
  | _, _ => Option.none

/-- The engine's `length(obj)` on the mutable document. -/
def MDoc.lengthObj (d : MDoc) (obj : Nat) : Nat :=
  match d.getObj obj with
  | some (.mapObj es) => es.length
  | some (.listObj its) => its.length
  | some (.textObj s) => s.length
  | Option.none => 0

/-- The error family of reconciliation (`enum ReconcileError` and `struct
StaleHeads`, `reconcile.rs` lines 394-409); `automerge` is a pass-through
document-engine fault. -/
inductive ReconcileError where
  | automerge (msg : String)
  | topLevelNotMap
  | staleHeads (expected found : List Nat)
  deriving DecidableEq

/-- Replace the object stored under `id` (helper for write operations). -/
def MDoc.setObj (d : MDoc) (id : Nat) (o : MObj) : List (Nat × MObj) :=
  d.objs.map (fun e => if e.1 = id then (id, o) else e)

/-- Write or overwrite a map entry, preserving entry order. -/
def putEntry (es : List (String × MVal)) (k : String) (v : MVal) :
    List (String × MVal) :=
  if es.any (fun e => e.1 = k) then
    es.map (fun e => if e.1 = k then (k, v) else e)
  else es ++ [(k, v)]

/-- The fresh object created for a kind. -/
def MDoc.emptyObj : ObjKind → MObj
  | .mapK => .mapObj []
  | .listK => .listObj []
  | .textK => .textObj ""

/-- Engine `put` of a scalar: map keys are written or overwritten, list
indices must be in range. -/
def MDoc.put (d : MDoc) (obj : Nat) (p : AmProp) (v : AmScalar) :
    Except ReconcileError MDoc :=
  match d.getObj obj, p with
  | some (.mapObj es), .key k =>
    .ok { d with
      objs := d.setObj obj (.mapObj (putEntry es k (.scalar v))),
      writes := d.writes ++ [.put obj p v] }
  | some (.listObj its), .index i =>
    if i < its.length then
      .ok { d with
        objs := d.setObj obj (.listObj (its.set i (.scalar v))),
        writes := d.writes ++ [.put obj p v] }
    else .error (.automerge "invalid index")
  | _, _ => .error (.automerge "invalid op")

/-- Engine `put_object`: like `put` but allocating a fresh object identity
and returning it. -/
def MDoc.putObject (d : MDoc) (obj : Nat) (p : AmProp) (kind : ObjKind) :
    Except ReconcileError (Nat × MDoc) :=
  let newId := d.nextId
  match d.getObj obj, p with
  | some (.mapObj es), .key k =>
    .ok (newId, { d with
      objs := d.setObj obj (.mapObj (putEntry es k (.objRef newId)))
        ++ [(newId, MDoc.emptyObj kind)],
      nextId := newId + 1,
      writes := d.writes ++ [.putObject obj p kind] })
  | some (.listObj its), .index i =>
    if i < its.length then
      .ok (newId, { d with
        objs := d.setObj obj (.listObj (its.set i (.objRef newId)))
          ++ [(newId, MDoc.emptyObj kind)],
        nextId := newId + 1,
        writes := d.writes ++ [.putObject obj p kind] })
    else .error (.automerge "invalid index")
  | _, _ => .error (.automerge "invalid op")

/-- Engine `insert` of a scalar into a list (index up to the length). -/
def MDoc.insertScalar (d : MDoc) (obj : Nat) (i : Nat) (v : AmScalar) :
    Except ReconcileError MDoc :=
  match d.getObj obj with
  | some (.listObj its) =>
    if i ≤ its.length then
      .ok { d with
        objs := d.setObj obj (.listObj (its.take i ++ [.scalar v] ++ its.drop i)),
        writes := d.writes ++ [.insert obj i v] }
    else .error (.automerge "invalid index")
  | _ => .error (.automerge "invalid op")

/-- Engine `insert_object` into a list, allocating a fresh identity. -/
def MDoc.insertObject (d : MDoc) (obj : Nat) (i : Nat) (kind : ObjKind) :
    Except ReconcileError (Nat × MDoc) :=
  let newId := d.nextId
  match d.getObj obj with
  | some (.listObj its) =>
    if i ≤ its.length then
      .ok (newId, { d with
        objs := d.setObj obj
            (.listObj (its.take i ++ [.objRef newId] ++ its.drop i))
          ++ [(newId, MDoc.emptyObj kind)],
        nextId := newId + 1,
        writes := d.writes ++ [.insertObject obj i kind] })
    else .error (.automerge "invalid index")
  | _ => .error (.automerge "invalid op")

/-- Engine `delete`: map keys are removed, list indices must be in
range. -/
def MDoc.deleteProp (d : MDoc) (obj : Nat) (p : AmProp) :
    Except ReconcileError MDoc :=
  match d.getObj obj, p with
  | some (.mapObj es), .key k =>
    .ok { d with
      objs := d.setObj obj (.mapObj (es.filter (fun e => e.1 ≠ k))),
      writes := d.writes ++ [.delete obj p] }
  | some (.listObj its), .index i =>
    if i < its.length then
      .ok { d with
        objs := d.setObj obj (.listObj (its.eraseIdx i)),
        writes := d.writes ++ [.delete obj p] }
    else .error (.automerge "invalid index")
  | _, _ => .error (.automerge "invalid op")

/-- Engine `splice_text`: a negative `del` deletes the characters
preceding `pos`, as in automerge; a splice outside the text fails. -/
def MDoc.spliceTextOp (d : MDoc) (obj : Nat) (pos : Nat) (del : Int)
    (ins : String) : Except ReconcileError MDoc :=
  match d.getObj obj with
  | some (.textObj s) =>
    let cs := s.toList
    let start := if del < 0 then pos - del.natAbs else pos
    let stop := if del < 0 then pos else pos + del.natAbs
    if del < 0 ∧ pos < del.natAbs then .error (.automerge "invalid splice")
    else if stop ≤ cs.length then
      .ok { d with
        objs := d.setObj obj
          (.textObj (String.mk (cs.take start ++ ins.toList ++ cs.drop stop))),
        writes := d.writes ++ [.spliceText obj pos del ins] }
    else .error (.automerge "invalid splice")
  | _ => .error (.automerge "invalid op")

/-! ## Slot reconciliation (`reconcile.rs`) -/

/-- `enum PropAction` (`reconcile.rs` lines 484-487): the slot being
reconciled is either property `p` of the current object (a put) or a
fresh index of it (an insert). -/
inductive PropAction where
  | put (p : AmProp)
  | insert (idx : Nat)
  deriving DecidableEq

/-- `PropAction::get_target` (`reconcile.rs` lines 490-499): an insert
never has an existing target. -/
def getTarget (d : MDoc) (obj : Nat) : PropAction → Option DocValue
  | .put p => d.get obj p
  | .insert _ => Option.none

/-- `PropAction::create_target_obj` (`reconcile.rs` lines 501-511). -/
def createTargetObj (d : MDoc) (obj : Nat) (a : PropAction) (kind : ObjKind) :
    Except ReconcileError (Nat × MDoc) :=
  match a with
  | .put p => d.putObject obj p kind
  | .insert idx => d.insertObject obj idx kind

/-- The write operation `create_target_obj` issues. -/
def createOp (a : PropAction) (obj : Nat) (kind : ObjKind) : WriteOp :=
  match a with
  | .put p => .putObject obj p kind
  | .insert idx => .insertObject obj idx kind

/-- `PropAction::create_primitive` (`reconcile.rs` lines 513-523). -/
def createPrimitive (d : MDoc) (obj : Nat) (a : PropAction) (v : AmScalar) :
    Except ReconcileError MDoc :=
  match a with
  | .put p => d.put obj p v
  | .insert idx => d.insertScalar obj idx v

/-- `PropReconciler::none` (`reconcile.rs` lines 544-548). -/
def propNone (d : MDoc) (obj : Nat) (a : PropAction) : Except ReconcileError MDoc :=
  createPrimitive d obj a .null

/-- `PropReconciler::bytes` (`reconcile.rs` lines 550-554). -/
def propBytes (d : MDoc) (obj : Nat) (a : PropAction) (bs : List Nat) :
    Except ReconcileError MDoc :=
  createPrimitive d obj a (.bytes bs)

/-- `PropReconciler::boolean` (`reconcile.rs` lines 556-560). -/
def propBoolean (d : MDoc) (obj : Nat) (a : PropAction) (b : Bool) :
    Except ReconcileError MDoc :=
  createPrimitive d obj a (.boolean b)

/-- `PropReconciler::timestamp` (`reconcile.rs` lines 562-566). -/
def propTimestamp (d : MDoc) (obj : Nat) (a : PropAction) (t : Int) :
    Except ReconcileError MDoc :=
  createPrimitive d obj a (.timestamp t)

/-- `PropReconciler::str` (`reconcile.rs` lines 568-572). -/
def propStr (d : MDoc) (obj : Nat) (a : PropAction) (s : String) :
    Except ReconcileError MDoc :=
  createPrimitive d obj a (.str s)

/-- `PropReconciler::u64` (`reconcile.rs` lines 574-578). -/
def propU64 (d : MDoc) (obj : Nat) (a : PropAction) (u : Nat) :
    Except ReconcileError MDoc :=
  createPrimitive d obj a (.uint u)

/-- `PropReconciler::i64` (`reconcile.rs` lines 580-584). -/
def propI64 (d : MDoc) (obj : Nat) (a : PropAction) (i : Int) :
    Except ReconcileError MDoc :=
  createPrimitive d obj a (.int i)

/-- `PropReconciler::f64` (`reconcile.rs` lines 586-590). -/
def propF64 (d : MDoc) (obj : Nat) (a : PropAction) (f : Int) :
    Except ReconcileError MDoc :=
  createPrimitive d obj a (.f64 f)

/-- `PropReconciler::map` (`reconcile.rs` lines 592-607): reuse the slot's
object when it is already a map, create a map object otherwise. -/
def propMap (d : MDoc) (obj : Nat) (a : PropAction) :
    Except ReconcileError (Nat × MDoc) :=
  match getTarget d obj a with
  | some (.objectV .mapK id) => .ok (id, d)
  | _ => createTargetObj d obj a .mapK

/-- `PropReconciler::seq` (`reconcile.rs` lines 609-624). -/
def propSeq (d : MDoc) (obj : Nat) (a : PropAction) :
    Except ReconcileError (Nat × MDoc) :=
  match getTarget d obj a with
  | some (.objectV .listK id) => .ok (id, d)
  | _ => createTargetObj d obj a .listK

/-- `PropReconciler::text` (`reconcile.rs` lines 626-641). -/
def propText (d : MDoc) (obj : Nat) (a : PropAction) :
    Except ReconcileError (Nat × MDoc) :=
  match getTarget d obj a with
  | some (.objectV .textK id) => .ok (id, d)
  | _ => createTargetObj d obj a .textK

/-- Dispatch over the three container switches, for stating properties of
all of them at once. -/
def propContainer : ObjKind → MDoc → Nat → PropAction → Except ReconcileError (Nat × MDoc)
  | .mapK => propMap
  | .listK => propSeq
  | .textK => propText

/-! ## Text state machine (`text.rs`) -/

/-- One recorded edit (`struct Splice`, `text.rs` lines 227-232). -/
structure SpliceRec where
  pos : Nat
  delete : Int
  insert : String
  deriving DecidableEq

/-- The private `State` of `Text` (`text.rs` lines 217-225). -/
inductive TextState where
  | fresh (v : String)
  | rehydrated (value : String) (edits : List SpliceRec) (fromHeads : List Nat)
  deriving DecidableEq

/-- Replay of the edit log (`for edit in edits` loop, `text.rs` lines
254-256).  A failing splice keeps the document reached so far and stops,
as the Rust error propagation does. -/
def spliceAll (tid : Nat) : MDoc → List SpliceRec → MDoc × Option ReconcileError
  | d, [] => (d, Option.none)
  | d, e :: rest =>
    match d.spliceTextOp tid e.pos e.delete e.insert with
    | .ok d1 => spliceAll tid d1 rest
    | .error er => (d, some er)

/-- Embedding of `impl Reconcile for Text`_s `reconcile` (`text.rs` lines
234-262) composed with the slot switch `reconciler.text()` it starts
with (`PropReconciler::text`): the returned document reflects all
mutations performed before an error, since the Rust reconciler mutates
the document in place. -/
def textReconcile (t : TextState) (d : MDoc) (obj : Nat) (a : PropAction) :
    MDoc × Option ReconcileError :=
  match propText d obj a with
  | .error e => (d, some e)
  | .ok (tid, d1) =>
    match t with
    | .fresh v =>
      match d1.spliceTextOp tid 0 0 v with
      | .ok d2 => (d2, Option.none)
      | .error er => (d1, some er)
    | .rehydrated _ edits fromHeads =>
      let toHeads := d1.heads
      if toHeads ≠ fromHeads then
        (d1, some (.staleHeads fromHeads toHeads))
      else
        spliceAll tid d1 edits

/-! ## Tuple reconciliation (`reconcile/seq.rs`, `tuple_impl!`) -/

/-- `SeqReconciler::set` (`InSeq::set`, `reconcile.rs` lines 806-815) for
an element that reconciles to a scalar: a `PropReconciler` with a
`Put(index)` action writes the scalar. -/
def seqSet (d : MDoc) (listId : Nat) (i : Nat) (v : AmScalar) :
    Except ReconcileError MDoc :=
  createPrimitive d listId (.put (.index i)) v

/-- `SeqReconciler::insert` (`InSeq::insert`, `reconcile.rs` lines
795-804) for an element that reconciles to a scalar. -/
def seqInsert (d : MDoc) (listId : Nat) (i : Nat) (v : AmScalar) :
    Except ReconcileError MDoc :=
  createPrimitive d listId (.insert i) v

/-- `SeqReconciler::delete` (`InSeq::delete`, `reconcile.rs` lines
817-821). -/
def seqDelete (d : MDoc) (listId : Nat) (i : Nat) : Except ReconcileError MDoc :=
  d.deleteProp listId (.index i)

/-- The `for ii in (arity + 1)..old_len` delete loop of the tuple impl
(`reconcile/seq.rs` lines 192-194), issued at the listed ascending
indices. -/
def deleteTrailing (listId : Nat) : MDoc → List Nat → MDoc × Option ReconcileError
  | d, [] => (d, Option.none)
  | d, ii :: rest =>
    match seqDelete d listId ii with
    | .ok d1 => deleteTrailing listId d1 rest
    | .error e => (d, some e)

/-- The component writes of the tuple impl (`reconcile/seq.rs` lines
195-206): component `i` is `set` when `i < old_len`, `insert`
otherwise. -/
def writeComponents (listId : Nat) (oldLen : Nat) :
    MDoc → List (Nat × AmScalar) → MDoc × Option ReconcileError
  | d, [] => (d, Option.none)
  | d, (i, v) :: rest =>
    match (if i < oldLen then seqSet d listId i v else seqInsert d listId i v) with
    | .ok d1 => writeComponents listId oldLen d1 rest
    | .error e => (d, some e)

/-- Embedding of the `reconcile` body generated by `tuple_impl!`
(`reconcile/seq.rs` lines 184-252) for a tuple of scalar components
`vals` (arity `vals.length`, at least 1); `reconciler.seq()` has already
produced `listId`.  The macro's `arity` variable is the highest component
index, so the delete loop covers `vals.length..old_len`, and the
component writes compare their index against the pre-delete
`old_len`. -/
def tupleReconcileScalars (d : MDoc) (listId : Nat) (vals : List AmScalar) :
    MDoc × Option ReconcileError :=
  let oldLen := d.lengthObj listId
  let k := vals.length
  match deleteTrailing listId d (List.range' k (oldLen - k)) with
  | (d1, some e) => (d1, some e)
  | (d1, Option.none) => writeComponents listId oldLen d1 vals.enum

/-! ## Example documents -/

/-- Example document for evaluating the tuple reconcile impl: a four
element scalar list under identity 1. -/
def tupleExampleDoc : MDoc :=
  { objs := [(1, .listObj [.scalar (.uint 1), .scalar (.uint 2),
      .scalar (.uint 3), .scalar (.uint 4)])],
    nextId := 2, heads := [], writes := [] }

/-- Example document for evaluating the scalar slot methods: the root map
holds `done ↦ true`. -/
def scalarExampleDoc : MDoc :=
  { objs := [(0, .mapObj [("done", .scalar (.boolean true))])],
    nextId := 1, heads := [], writes := [] }

/-- Example document for the text claims: the root map holds a text object
`x` under `t`; the current heads are `[1]`. -/
def textExampleDoc : MDoc :=
  { objs := [(0, .mapObj [("t", .objRef 1)]), (1, .textObj "x")],
    nextId := 2, heads := [1], writes := [] }

/-- Variant of the text example where the slot holds a scalar instead of a
text object. -/
def textScalarSlotDoc : MDoc :=
  { objs := [(0, .mapObj [("t", .scalar (.str "x"))])],
    nextId := 1, heads := [1], writes := [] }

/-- Example document for the container slot switches: the root map holds a
map object under `cfg` and a scalar under `n`. -/
def containerExampleDoc : MDoc :=
  { objs := [(0, .mapObj [("cfg", .objRef 1), ("n", .scalar (.uint 5))]),
      (1, .mapObj [])],
    nextId := 2, heads := [], writes := [] }

end Autosurgeon

namespace Autosurgeon

/-- Claim C1: in the sequence diff engine, an old marker and a new element
compare equal exactly when both keys are `found` and equal, or neither key
is `found` and the old index equals the new index; when exactly one side
is `found` they never compare equal. -/
theorem claim_c1_seq_diff_equality {K : Type} [DecidableEq K]
    (newKey oldKey : LoadKey K) (newIndex oldIndex : Nat) :
    (newElemEqOldElem newKey newIndex oldKey oldIndex = true ↔
      ((∃ k, newKey = .found k ∧ oldKey = .found k) ∨
        (newKey.isFound = false ∧ oldKey.isFound = false ∧ oldIndex = newIndex))) ∧
    (newKey.isFound ≠ oldKey.isFound →
      newElemEqOldElem newKey newIndex oldKey oldIndex = false) := by
  constructor
  · cases newKey <;> cases oldKey <;>
      simp [newElemEqOldElem, LoadKey.isFound, eq_comm]
  · intro h
    cases newKey <;> cases oldKey <;>
      simp [newElemEqOldElem, LoadKey.isFound] at h ⊢

/-- Witness for C1 at concrete inputs. -/
theorem claim_c1_seq_diff_equality_witness :
    newElemEqOldElem (K := Nat) (.found 3) 0 (.found 3) 5 = true ∧
    newElemEqOldElem (K := Nat) (.noKey) 2 (.keyNotFound) 2 = true ∧
    newElemEqOldElem (K := Nat) (.found 3) 2 (.noKey) 2 = false :=
  ⟨(claim_c1_seq_diff_equality (K := Nat) (.found 3) (.found 3) 0 5).1.mpr
      (Or.inl ⟨3, rfl, rfl⟩),
    (claim_c1_seq_diff_equality (K := Nat) .noKey .keyNotFound 2 2).1.mpr
      (Or.inr ⟨rfl, rfl, rfl⟩),
    (claim_c1_seq_diff_equality (K := Nat) (.found 3) .noKey 2 2).2
      (by simp [LoadKey.isFound])⟩

/-- Claim C2: a map entry whose value key is `found new` and whose existing
document entry key hydrates to `found existing` with `existing ≠ new` is
reconciled by a delete followed by a put; every other combination of key
results yields a plain put. -/
theorem claim_c2_map_keyed_replacement {K V : Type} [DecidableEq K]
    (keyOf : V → LoadKey K) (hydrateEntryKey : String → LoadKey K)
    (k : String) (val : V) (rest : List (String × V)) :
    (∀ newKey existingKey, keyOf val = .found newKey →
      hydrateEntryKey k = .found existingKey → existingKey ≠ newKey →
      reconcileMapImpl keyOf hydrateEntryKey ((k, val) :: rest) =
        .delete k :: .put k val :: reconcileMapImpl keyOf hydrateEntryKey rest) ∧
    ((¬ ∃ newKey existingKey, keyOf val = .found newKey ∧
        hydrateEntryKey k = .found existingKey ∧ existingKey ≠ newKey) →
      reconcileMapImpl keyOf hydrateEntryKey ((k, val) :: rest) =
        .put k val :: reconcileMapImpl keyOf hydrateEntryKey rest) := by
  constructor
  · intro newKey existingKey hnew hex hne
    simp only [reconcileMapImpl, hnew, hex, if_pos hne]
  · intro hno
    simp only [reconcileMapImpl]
    cases hkv : keyOf val with
    | noKey => rfl
    | keyNotFound => rfl
    | found newKey =>
      cases hek : hydrateEntryKey k with
      | noKey => rfl
      | keyNotFound => rfl
      | found existingKey =>
        have : existingKey = newKey := by
          by_contra hne
          exact hno ⟨newKey, existingKey, hkv, hek, hne⟩
        simp [this]

/-- Witness for C2 at concrete inputs: an entry whose keys are `found 1`
(in the document) and `found 2` (in the value) is replaced, while an entry
with equal keys is plainly put. -/
theorem claim_c2_map_keyed_replacement_witness :
    reconcileMapImpl (K := Nat) (V := Nat) (fun v => .found v)
        (fun _ => .found 1) [("user", 2)] =
      [.delete "user", .put "user" 2] ∧
    reconcileMapImpl (K := Nat) (V := Nat) (fun v => .found v)
        (fun _ => .found 2) [("user", 2)] =
      [.put "user" 2] :=
  ⟨(claim_c2_map_keyed_replacement (fun v => .found v) (fun _ => .found 1)
        "user" 2 []).1 2 1 rfl rfl (by decide),
    (claim_c2_map_keyed_replacement (fun v => .found v) (fun _ => .found 2)
        "user" 2 []).2
      (by rintro ⟨nk, ek, hnk, hek, hne⟩
          simp only [LoadKey.found.injEq] at hnk hek
          exact hne (hek.symm.trans hnk))⟩

/-- Claim C9: hydrating `Option<T>` at a slot distinguishes absence from
null: an absent slot is the `Unexpected` error expecting `a
ScalarValue::Null` and finding `nothing at all`, a `Null` scalar hydrates
to `Ok(None)`, and any other node hydrates to `Some` of the result of
dispatching to the matching constructor of `T`. -/
theorem claim_c9_option_hydrate {α : Type} (t : HydrateImpl α) (root : Node)
    (obj : List AmProp) (p : AmProp) :
    (getAt root obj p = Option.none →
      optionHydrate t root obj p =
        .error (.unexpected (.other "a ScalarValue::Null" "nothing at all"))) ∧
    (getAt root obj p = some (.scalar .null) →
      optionHydrate t root obj p = .ok Option.none) ∧
    (∀ n, getAt root obj p = some n → n ≠ .scalar .null →
      optionHydrate t root obj p = (hydrateNode t root (obj ++ [p]) n).map some) := by
  refine ⟨?_, ?_, ?_⟩
  · intro hg
    simp [optionHydrate, hg]
  · intro hg
    simp [optionHydrate, hg]
  · intro n hg hne
    cases n with
    | map es => simp [optionHydrate, hg, hydrateNode]
    | list its => simp [optionHydrate, hg, hydrateNode]
    | text s => simp [optionHydrate, hg, hydrateNode]
    | scalar v =>
      cases v
      case null => exact absurd rfl hne
      all_goals simp [optionHydrate, hg, hydrateNode, hydrateScalar]

/-- Witness for C9 on a concrete document holding a null at `x` and a
uint at `y`, probed at the absent key `z`. -/
theorem claim_c9_option_hydrate_witness :
    optionHydrate u64Hydrate
        (.map [("x", .scalar .null), ("y", .scalar (.uint 7))]) [] (.key "z") =
      .error (.unexpected (.other "a ScalarValue::Null" "nothing at all")) ∧
    optionHydrate u64Hydrate
        (.map [("x", .scalar .null), ("y", .scalar (.uint 7))]) [] (.key "x") =
      .ok Option.none ∧
    optionHydrate u64Hydrate
        (.map [("x", .scalar .null), ("y", .scalar (.uint 7))]) [] (.key "y") =
      .ok (some 7) :=
  ⟨(claim_c9_option_hydrate u64Hydrate _ [] (.key "z")).1 rfl,
    (claim_c9_option_hydrate u64Hydrate _ [] (.key "x")).2.1 rfl,
    ((claim_c9_option_hydrate u64Hydrate
        (.map [("x", .scalar .null), ("y", .scalar (.uint 7))]) [] (.key "y")).2.2
        (.scalar (.uint 7)) rfl (by simp)).trans rfl⟩

/-- Claim C10: hydrating a fixed-arity tuple from a document sequence fails
with the `tuple arity mismatch` `Unexpected` error whenever the
sequence's length differs from the arity, and when the lengths match it
hydrates exactly the indices `0..arity`, each index dispatching on the
element stored there.  The source instantiates the macro for arities 1 to
24. -/
theorem claim_c10_tuple_arity {α : Type} (h : HydrateImpl α) (arity : Nat)
    (root : Node) (obj : List AmProp) (items : List Node)
    (hres : resolveAddr root obj = some (.list items))
    (_harityPos : 1 ≤ arity) (_harityMax : arity ≤ 24) :
    (items.length ≠ arity →
      tupleHydrateSeq h arity root obj =
        .error (.unexpected (.other "tuple arity mismatch"
          ("tuple of arity " ++ toString arity ++ " but array of length " ++
            toString items.length)))) ∧
    (items.length = arity →
      tupleHydrateSeq h arity root obj =
        (List.range arity).mapM (fun i => hydrateAt h root obj (.index i)) ∧
      ∀ i (hi : i < items.length),
        hydrateAt h root obj (.index i) =
          hydrateNode h root (obj ++ [.index i]) (items.get ⟨i, hi⟩)) := by
  have hlen : lengthAt root obj = items.length := by
    simp [lengthAt, hres]
  constructor
  · intro hne
    simp [tupleHydrateSeq, hlen, hne]
  · intro heq
    constructor
    · simp [tupleHydrateSeq, hlen, heq]
    · intro i hi
      have hget : getAt root obj (.index i) = some (items.get ⟨i, hi⟩) := by
        simp [getAt, hres, Node.child, List.get?_eq_get hi]
      simp [hydrateAt, hget]

/-- Witness for C10 on a concrete two-element document sequence probed at
arities 3 (mismatch) and 2 (match). -/
theorem claim_c10_tuple_arity_witness :
    tupleHydrateSeq u64Hydrate 3
        (.map [("t", .list [.scalar (.uint 1), .scalar (.uint 2)])]) [.key "t"] =
      .error (.unexpected (.other "tuple arity mismatch"
        "tuple of arity 3 but array of length 2")) ∧
    tupleHydrateSeq u64Hydrate 2
        (.map [("t", .list [.scalar (.uint 1), .scalar (.uint 2)])]) [.key "t"] =
      .ok [1, 2] :=
  ⟨((claim_c10_tuple_arity u64Hydrate 3
        (.map [("t", .list [.scalar (.uint 1), .scalar (.uint 2)])]) [.key "t"]
        [.scalar (.uint 1), .scalar (.uint 2)] rfl (by decide) (by decide)).1
      (by decide)).trans rfl,
    (((claim_c10_tuple_arity u64Hydrate 2
        (.map [("t", .list [.scalar (.uint 1), .scalar (.uint 2)])]) [.key "t"]
        [.scalar (.uint 1), .scalar (.uint 2)] rfl (by decide) (by decide)).2
      rfl).1).trans rfl⟩

/-- Claim C4 is violated by the code (evaluation at the failing input):
for the document `{a: 5}` and the two-element path `["a", "b"]`, whose
first element resolves to a scalar while a further path element remains,
`hydrate_path` for `u64` does not return `Ok(None)`: the loop's
`path.peek()` looks one element past the already-consumed `"b"`, so the
walk falls through and hydrates `"b"` against the parent object, where it
is absent, producing the `Unexpected` `None` error. -/
theorem claim_c4_hydrate_path_scalar_bug :
    hydratePath u64Hydrate (.map [("a", .scalar (.uint 5))]) []
        [.key "a", .key "b"] =
      .error (.unexpected .none) := rfl

/-- Claim C5: a `fresh n` counter reconciles by the single absolute `set n`
call; a `rehydrated original increment` counter reconciles by the single
relative `increment` call (so never an absolute set); and `value()` of a
rehydrated counter is `original + increment`. -/
theorem claim_c5_counter_reconcile :
    (∀ n : Int, counterReconcileOps (.fresh n) = [.set n]) ∧
    (∀ original increment : Int,
      counterReconcileOps (.rehydrated original increment) =
        [.increment increment] ∧
      (∀ v : Int, CounterOp.set v ∉
        counterReconcileOps (.rehydrated original increment)) ∧
      counterValue (.rehydrated original increment) = original + increment) := by
  refine ⟨fun n => rfl, fun original increment => ⟨rfl, ?_, rfl⟩⟩
  intro v hv
  simp [counterReconcileOps] at hv

/-- Witness for C5 at concrete counter states. -/
theorem claim_c5_counter_reconcile_witness :
    counterReconcileOps (.fresh 4) = [.set 4] ∧
    counterReconcileOps (.rehydrated 10 5) = [.increment 5] ∧
    counterValue (.rehydrated 10 5) = 15 :=
  ⟨claim_c5_counter_reconcile.1 4,
    (claim_c5_counter_reconcile.2 10 5).1,
    (claim_c5_counter_reconcile.2 10 5).2.2.trans (by decide)⟩

/-- Helper: a successful `splice_text` engine call appends exactly its own
operation to the write trace. -/
theorem spliceTextOp_writes (d : MDoc) (obj pos : Nat) (del : Int) (ins : String)
    (d1 : MDoc) (h : d.spliceTextOp obj pos del ins = .ok d1) :
    d1.writes = d.writes ++ [.spliceText obj pos del ins] := by
  unfold MDoc.spliceTextOp at h
  split at h
  · dsimp only [] at h
    repeat' split at h
    all_goals
      first
        | (simp only [Except.ok.injEq] at h
           subst h
           rfl)
        | simp at h
  · simp at h

/-- Helper: a successful replay of an edit log appends exactly the edits,
in order, as splice operations. -/
theorem spliceAll_writes (tid : Nat) (edits : List SpliceRec) :
    ∀ d : MDoc, (spliceAll tid d edits).2 = Option.none →
      (spliceAll tid d edits).1.writes =
        d.writes ++ edits.map (fun e => WriteOp.spliceText tid e.pos e.delete e.insert) := by
  induction edits with
  | nil =>
    intro d _
    simp [spliceAll]
  | cons e rest ih =>
    intro d h
    cases hs : d.spliceTextOp tid e.pos e.delete e.insert with
    | error er => simp [spliceAll, hs] at h
    | ok d1 =>
      simp only [spliceAll, hs] at h ⊢
      rw [ih d1 h, spliceTextOp_writes d tid e.pos e.delete e.insert d1 hs]
      simp

/-- Helper: `find?` misses a list none of whose keys is `nid`. -/
theorem find?_keys_ne (base : List (Nat × MObj)) (nid : Nat)
    (h : ∀ e ∈ base, e.1 ≠ nid) :
    base.find? (fun e => e.1 = nid) = Option.none := by
  rw [List.find?_eq_none]
  intro x hx
  simp [h x hx]

/-- Helper: looking a freshly appended identity up finds the fresh
object. -/
theorem getObj_append_fresh (base : List (Nat × MObj)) (nid : Nat) (o : MObj)
    (h : ∀ e ∈ base, e.1 ≠ nid) :
    ((base ++ [(nid, o)]).find? (fun e => e.1 = nid)).map (fun e => e.2) = some o := by
  rw [List.find?_append, find?_keys_ne base nid h]
  simp [List.find?]

/-- Helper: `setObj` preserves the keys of the object table. -/
theorem setObj_keys_lt (d : MDoc) (oid : Nat) (o : MObj) (bound : Nat)
    (h : ∀ e ∈ d.objs, e.1 < bound) :
    ∀ e ∈ d.setObj oid o, e.1 < bound := by
  intro e he
  simp only [MDoc.setObj, List.mem_map] at he
  obtain ⟨x, hx, rfl⟩ := he
  by_cases hxo : x.1 = oid
  · simpa [hxo] using hxo ▸ h x hx
  · simpa [hxo] using h x hx

/-- Helper: when `create_target_obj` succeeds on a well-formed document
(every stored identity is below `nextId`), the returned identity is the
fresh `nextId`, the fresh object of the requested kind is stored under
it, and exactly the creating write is issued. -/
theorem createTargetObj_fresh (d : MDoc) (obj : Nat) (a : PropAction) (kind : ObjKind)
    (hwf : ∀ e ∈ d.objs, e.1 < d.nextId) (id : Nat) (d1 : MDoc)
    (h : createTargetObj d obj a kind = .ok (id, d1)) :
    id = d.nextId ∧ d1.nextId = d.nextId + 1 ∧
      d1.getObj id = some (MDoc.emptyObj kind) ∧
      d1.writes = d.writes ++ [createOp a obj kind] := by
  have hkeys : ∀ (oid : Nat) (o : MObj), ∀ e ∈ d.setObj oid o, e.1 ≠ d.nextId :=
    fun oid o e he => Nat.ne_of_lt (setObj_keys_lt d oid o d.nextId hwf e he)
  cases a with
  | put p =>
    simp only [createTargetObj, MDoc.putObject] at h
    cases hobj : d.getObj obj with
    | none => simp [hobj] at h
    | some o =>
      cases o with
      | mapObj es =>
        cases p with
        | key k =>
          simp only [hobj, Except.ok.injEq, Prod.mk.injEq] at h
          obtain ⟨hid, hd1⟩ := h
          subst hid
          subst hd1
          exact ⟨rfl, rfl, getObj_append_fresh _ _ _ (hkeys _ _), rfl⟩
        | index i => simp [hobj] at h
      | listObj its =>
        cases p with
        | key k => simp [hobj] at h
        | index i =>
          simp only [hobj] at h
          by_cases hi : i < its.length
          · simp only [if_pos hi, Except.ok.injEq, Prod.mk.injEq] at h
            obtain ⟨hid, hd1⟩ := h
            subst hid
            subst hd1
            exact ⟨rfl, rfl, getObj_append_fresh _ _ _ (hkeys _ _), rfl⟩
          · simp [if_neg hi] at h
      | textObj s => simp [hobj] at h
  | insert idx =>
    simp only [createTargetObj, MDoc.insertObject] at h
    cases hobj : d.getObj obj with
    | none => simp [hobj] at h
    | some o =>
      cases o with
      | mapObj es => simp [hobj] at h
      | listObj its =>
        simp only [hobj] at h
        by_cases hi : idx ≤ its.length
        · simp only [if_pos hi, Except.ok.injEq, Prod.mk.injEq] at h
          obtain ⟨hid, hd1⟩ := h
          subst hid
          subst hd1
          exact ⟨rfl, rfl, getObj_append_fresh _ _ _ (hkeys _ _), rfl⟩
        · simp [if_neg hi] at h
      | textObj s => simp [hobj] at h

/-- Claim C8: switching a slot to a Map, Sequence or Text container reuses
the existing object's identity, without touching the document, exactly
when the slot already holds an object of that kind; in every other case
(empty slot, scalar, object of a different kind) the switch is the
creating call, which allocates the fresh identity, stores a fresh object
of the requested kind and issues the creating write. -/
theorem claim_c8_container_identity_reuse (d : MDoc) (obj : Nat) (a : PropAction)
    (hwf : ∀ e ∈ d.objs, e.1 < d.nextId) :
    (∀ id, getTarget d obj a = some (.objectV .mapK id) →
      propMap d obj a = .ok (id, d)) ∧
    (∀ id, getTarget d obj a = some (.objectV .listK id) →
      propSeq d obj a = .ok (id, d)) ∧
    (∀ id, getTarget d obj a = some (.objectV .textK id) →
      propText d obj a = .ok (id, d)) ∧
    (∀ kind : ObjKind, (∀ id, getTarget d obj a ≠ some (.objectV kind id)) →
      propContainer kind d obj a = createTargetObj d obj a kind ∧
      (∀ id d1, propContainer kind d obj a = .ok (id, d1) →
        id = d.nextId ∧ d1.nextId = d.nextId + 1 ∧
        d1.getObj id = some (MDoc.emptyObj kind) ∧
        d1.writes = d.writes ++ [createOp a obj kind])) := by
  refine ⟨?_, ?_, ?_, ?_⟩
  · intro id hid
    simp [propMap, hid]
  · intro id hid
    simp [propSeq, hid]
  · intro id hid
    simp [propText, hid]
  · intro kind hne
    have heq : propContainer kind d obj a = createTargetObj d obj a kind := by
      cases kind with
      | mapK =>
        show propMap d obj a = createTargetObj d obj a .mapK
        unfold propMap
        split
        · next id heq2 => exact absurd heq2 (hne id)
        · rfl
      | listK =>
        show propSeq d obj a = createTargetObj d obj a .listK
        unfold propSeq
        split
        · next id heq2 => exact absurd heq2 (hne id)
        · rfl
      | textK =>
        show propText d obj a = createTargetObj d obj a .textK
        unfold propText
        split
        · next id heq2 => exact absurd heq2 (hne id)
        · rfl
    refine ⟨heq, ?_⟩
    intro id d1 hok
    rw [heq] at hok
    exact createTargetObj_fresh d obj a kind hwf id d1 hok

/-- Witness for C8 on a concrete document: the map object under `cfg` is
reused identity-for-identity, while the scalar slot under `n` makes the
sequence switch fall through to the creating call. -/
theorem claim_c8_container_identity_reuse_witness :
    propMap containerExampleDoc 0 (.put (.key "cfg")) =
      .ok (1, containerExampleDoc) ∧
    propContainer .listK containerExampleDoc 0 (.put (.key "n")) =
      createTargetObj containerExampleDoc 0 (.put (.key "n")) .listK := by
  constructor
  · exact (claim_c8_container_identity_reuse containerExampleDoc 0
      (.put (.key "cfg")) (by decide)).1 1 rfl
  · refine ((claim_c8_container_identity_reuse containerExampleDoc 0
      (.put (.key "n")) (by decide)).2.2.2 .listK ?_).1
    intro id hcontra
    have hv : getTarget containerExampleDoc 0 (.put (.key "n")) =
        some (.scalarV (.uint 5)) := rfl
    rw [hv] at hcontra
    simp at hcontra

/-- Counterexample to claim C3 as stated: for a rehydrated Text whose slot
holds a scalar and whose hydration heads `[0]` differ from the current
heads `[1]`, reconcile does return the `StaleHeads` error, but the
document HAS been mutated: the `reconciler.text()` slot switch created a
fresh text object before the heads comparison ran. -/
theorem claim_c3_counterexample_slot_mutation :
    (textReconcile (.rehydrated "x" [] [0]) textScalarSlotDoc 0
        (.put (.key "t"))).2 = some (.staleHeads [0] [1]) ∧
    (textReconcile (.rehydrated "x" [] [0]) textScalarSlotDoc 0
        (.put (.key "t"))).1.writes = [.putObject 0 (.key "t") .textK] :=
  ⟨rfl, rfl⟩

/-- Claim C3, amended: for a Text in the `Rehydrated` state reconciled at
a slot that already holds a Text object, reconcile compares the heads
recorded at hydration with the heads reported by the reconciler: if they
differ it returns the `StaleHeads` error with `expected` the hydration
heads and `found` the current heads, and the document is unchanged; if
they are equal it replays the buffered edit log, and a successful replay
issues exactly the edits, verbatim and in order, as document splices.
(When the slot does not already hold a Text object, the slot switch that
runs before the heads comparison creates one, so the unchanged-document
part needs the slot hypothesis.) -/
theorem claim_c3_text_stale_heads (value : String) (edits : List SpliceRec)
    (fromHeads : List Nat) (d : MDoc) (obj : Nat) (a : PropAction) (tid : Nat)
    (hslot : getTarget d obj a = some (.objectV .textK tid)) :
    (d.heads ≠ fromHeads →
      textReconcile (.rehydrated value edits fromHeads) d obj a =
        (d, some (.staleHeads fromHeads d.heads))) ∧
    (d.heads = fromHeads →
      textReconcile (.rehydrated value edits fromHeads) d obj a =
        spliceAll tid d edits ∧
      ((spliceAll tid d edits).2 = Option.none →
        (spliceAll tid d edits).1.writes =
          d.writes ++ edits.map (fun e => WriteOp.spliceText tid e.pos e.delete e.insert))) := by
  have hp : propText d obj a = .ok (tid, d) := by
    simp [propText, hslot]
  constructor
  · intro hne
    simp [textReconcile, hp, hne]
  · intro heq
    refine ⟨?_, fun hok => spliceAll_writes tid edits d hok⟩
    simp [textReconcile, hp, heq]

/-- Witness for C3 (amended) on the concrete text document: stale heads
`[0]` against current heads `[1]` fail without any mutation, while
matching heads replay the single recorded edit as a splice. -/
theorem claim_c3_text_stale_heads_witness :
    textReconcile (.rehydrated "x" [] [0]) textExampleDoc 0 (.put (.key "t")) =
      (textExampleDoc, some (.staleHeads [0] [1])) ∧
    (textReconcile (.rehydrated "x" [⟨1, 0, "yz"⟩] [1]) textExampleDoc 0
        (.put (.key "t"))).1.writes = [.spliceText 1 1 0 "yz"] := by
  constructor
  · exact (claim_c3_text_stale_heads "x" [] [0] textExampleDoc 0
      (.put (.key "t")) 1 rfl).1 (by decide)
  · have h2 := (claim_c3_text_stale_heads "x" [⟨1, 0, "yz"⟩] [1] textExampleDoc 0
      (.put (.key "t")) 1 rfl).2 rfl
    rw [h2.1]
    exact (h2.2 rfl).trans rfl

/-- Claim C6 is violated by the code (evaluation at the failing input):
reconciling the arity-2 tuple `(10, 20)` against an existing document
sequence `[1, 2, 3, 4]` should leave exactly `[10, 20]`, but the trailing
delete loop runs over the ascending indices `2, 3` without accounting for
the leftward shift each delete causes: the first delete removes the
element `3`, and the second delete targets index 3 of a three-element
list, which the document engine rejects, so reconciliation fails having
deleted the wrong element. -/
theorem claim_c6_tuple_trailing_delete_bug :
    (tupleReconcileScalars tupleExampleDoc 1 [.uint 10, .uint 20]).2 =
      some (.automerge "invalid index") ∧
    (tupleReconcileScalars tupleExampleDoc 1 [.uint 10, .uint 20]).1.getObj 1 =
      some (.listObj [.scalar (.uint 1), .scalar (.uint 2), .scalar (.uint 4)]) ∧
    (tupleReconcileScalars tupleExampleDoc 1 [.uint 10, .uint 20]).1.writes =
      [.delete 1 (.index 2)] :=
  ⟨rfl, rfl, rfl⟩

/-- Claim C7 is violated by the code (evaluation at the failing input):
the slot `done` already holds the boolean `true`, yet reconciling the
boolean `true` into it still issues a `put` write to the document engine:
`PropReconciler::boolean` calls `create_primitive` unconditionally, with
no equality check against the existing node. -/
theorem claim_c7_scalar_put_unconditional :
    MDoc.get scalarExampleDoc 0 (.key "done") = some (.scalarV (.boolean true)) ∧
    propBoolean scalarExampleDoc 0 (.put (.key "done")) true =
      .ok { scalarExampleDoc with
        writes := [.put 0 (.key "done") (.boolean true)] } :=
  ⟨rfl, rfl⟩

end Autosurgeon
